import Mathlib

/-!
Verification of the maroto component-composition core against its
natural-language specification.

Shallow embedding of:
  - src/pkg/components/col/col.go            (package col)
  - src/pkg/components/code/matrixcode.go    (package code, matrixCode)
  - src/unnamed/part_000                     (package code, barcode — older API)

Go reference sharing of the immutable-after-construction Config is modelled
by value equality of the stored Config; a nil pointer is modelled by
Option.none.  Go float64 fields (cell geometry, row height) are modelled by
Int: the embedded operations only store and pass these values through, never
computing with them, so no rounding behaviour is lost.
-/

namespace Maroto

/-- entity.Config, consumed read-only by the embedded code.  Of its fields the
layout core reads only MaxGridSize (col.GetSize); the other document-wide
fields are never read by the embedded operations and are omitted. -/
structure Config where
  MaxGridSize : Int
deriving DecidableEq

/-- A dynamic scalar as it appears in a Structure node's Value or Details
(Go interface value: int, string or bool in this codebase). -/
inductive Val where
  | int (i : Int)
  | str (s : String)
  | bool (b : Bool)
deriving DecidableEq

/-- Modelled from the spec: props.Rect / props.Barcode (the props package is
not under src/).  Per the spec a leaf's properties are a validated style or
shape descriptor — rectangle placement fields plus a centering flag. -/
structure Rect where
  left : Int
  top : Int
  percent : Int
  center : Bool
deriving DecidableEq

/-- The Go zero value of the properties object (all fields unset). -/
def Rect.zero : Rect := { left := 0, top := 0, percent := 0, center := false }

/-- Modelled from the spec: MakeValid normalizes the properties, filling
defaults for unset or invalid fields (an out-of-range percent defaults to the
full 100), so that no invalid value reaches the Provider. -/
def Rect.MakeValid (r : Rect) : Rect :=
  if r.percent ≤ 0 ∨ 100 < r.percent then { r with percent := 100 } else r

/-- Modelled from the spec: ToMap exports the properties object as a mapping
of auxiliary property names to values. -/
def Rect.ToMap (r : Rect) : List (String × Val) :=
  [("prop_left", Val.int r.left),
   ("prop_top", Val.int r.top),
   ("prop_percent", Val.int r.percent),
   ("prop_center", Val.bool r.center)]

/-- Modelled from the spec: props.Cell (not under src/), the optional
cell-level visual properties of a Column — border, background, alignment. -/
structure CellProps where
  border : Bool
  backgroundColor : String
  align : String
deriving DecidableEq

/-- Modelled from the spec: the style's exported map; a nil style pointer
exports an empty mapping (c.style.ToMap() on a nil receiver). -/
def styleToMap : Option CellProps → List (String × Val)
  | none => []
  | some s =>
      [("border", Val.bool s.border),
       ("background_color", Val.str s.backgroundColor),
       ("align", Val.str s.align)]

/-- core.Component: the leaf components present in the sources.  Each leaf
stores its content string, its normalized properties and the (initially nil)
config pointer, exactly the fields of the Go structs matrixCode and barcode. -/
inductive Component where
  | matrixCode (code : String) (prop : Rect) (config : Option Config)
  | barcode (code : String) (prop : Rect) (config : Option Config)
deriving DecidableEq

/-- The config field of a leaf component. -/
def Component.configOf : Component → Option Config
  | .matrixCode _ _ cfg => cfg
  | .barcode _ _ cfg => cfg

/-- The col struct of col.go: size, isMax, ordered children, config pointer,
style pointer. -/
structure Col where
  size : Int
  isMax : Bool
  components : List Component
  config : Option Config
  style : Option CellProps
deriving DecidableEq

/-- col.New: with no size argument the column is marked auto-max (isMax),
otherwise the first size argument is stored.  The Go variadic parameter is
the list. -/
def Col.New : List Int → Col
  | [] => { size := 0, isMax := true, components := [], config := none, style := none }
  | s :: _ => { size := s, isMax := false, components := [], config := none, style := none }

/-- col.Add: appends the given components, preserving order, returns self. -/
def Col.Add (c : Col) (comps : List Component) : Col :=
  { c with components := c.components ++ comps }

/-- col.WithStyle: stores the style pointer, returns self. -/
def Col.WithStyle (c : Col) (style : CellProps) : Col :=
  { c with style := some style }

/-- The possible outcomes of col.GetSize.  The Go signature returns a bare
int, so the only outcomes are a value or a runtime panic; nilDeref models the
nil-pointer dereference of c.config.MaxGridSize when config was never set. -/
inductive SizeResult where
  | ok (n : Int)
  | nilDeref
deriving DecidableEq

/-- col.GetSize: returns config.MaxGridSize when isMax (dereferencing the
config pointer, a panic when it is nil), else the stored size. -/
def Col.GetSize (c : Col) : SizeResult :=
  if c.isMax then
    match c.config with
    | none => SizeResult.nilDeref
    | some cfg => SizeResult.ok cfg.MaxGridSize
  else
    SizeResult.ok c.size

/-- core.Structure: the data carried by one structure-tree node. -/
structure Structure where
  Typ : String
  Value : Val
  Details : List (String × Val)
deriving DecidableEq

/-- node.Node[core.Structure] of go-tree: a structure datum plus the ordered
children added by AddNext. -/
inductive SNode where
  | mk (data : Structure) (children : List SNode)

/-- The structure datum of a node. -/
def SNode.data : SNode → Structure
  | .mk d _ => d

/-- The ordered children of a node. -/
def SNode.children : SNode → List SNode
  | .mk _ c => c

/-- matrixCode.GetStructure / barcode.GetStructure.  matrixCode fills
Details from prop.ToMap(); the older barcode builds its Structure from Type
and Value only, leaving Details at its zero value (nil map, here []). -/
def Component.GetStructure : Component → SNode
  | .matrixCode code prop _ =>
      .mk { Typ := "matrixcode", Value := Val.str code, Details := Rect.ToMap prop } []
  | .barcode code _ _ =>
      .mk { Typ := "barcode", Value := Val.str code, Details := [] } []

/-- col.GetStructure: a node of type "col" with Value = the stored size and
Details = the style's exported map, with an is_max entry added when the
column is auto-max; one child node per contained component, in order
(node.AddNext appends). -/
def Col.GetStructure (c : Col) : SNode :=
  let baseDetails := styleToMap c.style
  let details :=
    if c.isMax then baseDetails ++ [("is_max", Val.bool true)] else baseDetails
  SNode.mk { Typ := "col", Value := Val.int c.size, Details := details }
    (c.components.map Component.GetStructure)

/-- entity.Cell: the geometry handed from parent to child during a render
traversal. -/
structure Cell where
  X : Int
  Y : Int
  Width : Int
  Height : Int
deriving DecidableEq

/-- One call made against the core.Provider during rendering; a render
traversal is modelled as the ordered trace of these calls. -/
inductive ProviderCall where
  | createCol (width : Int) (height : Int) (config : Option Config) (style : Option CellProps)
  | addMatrixCode (code : String) (cell : Cell) (prop : Rect)
  | addBarCode (code : String) (cell : Cell) (prop : Rect)
deriving DecidableEq

/-- Whether a provider call is CreateCol. -/
def ProviderCall.isCreateCol : ProviderCall → Bool
  | .createCol _ _ _ _ => true
  | _ => false

/-- Leaf Render: a single pass-through call to the provider's
variant-specific operation with content, the received cell and the stored
properties. -/
def Component.Render : Component → Cell → List ProviderCall
  | .matrixCode code prop _, cell => [ProviderCall.addMatrixCode code cell prop]
  | .barcode code prop _, cell => [ProviderCall.addBarCode code cell prop]

/-- col.Render: when createCell holds, first CreateCol(cell.Width,
cell.Height, c.config, c.style); then each child component's Render in
stored order, every child receiving the same cell. -/
def Col.Render (c : Col) (cell : Cell) (createCell : Bool) : List ProviderCall :=
  (if createCell then
      [ProviderCall.createCol cell.Width cell.Height c.config c.style]
    else []) ++
  (c.components.map (fun comp => Component.Render comp cell)).flatten

/-- Leaf SetConfig: stores the config pointer. -/
def Component.SetConfig : Component → Config → Component
  | .matrixCode code prop _, cfg => .matrixCode code prop (some cfg)
  | .barcode code prop _, cfg => .barcode code prop (some cfg)

/-- col.SetConfig: stores the config, then calls SetConfig on every child. -/
def Col.SetConfig (c : Col) (cfg : Config) : Col :=
  { c with
    config := some cfg
    components := c.components.map (fun comp => Component.SetConfig comp cfg) }

/-- Modelled from the spec: the row package is not under src/.  A Row is a
band of fixed height holding an ordered sequence of Columns (height modelled
as Int; it is only stored, never computed with). -/
structure Row where
  height : Int
  cols : List Col
  config : Option Config
deriving DecidableEq

/-- Modelled from the spec: row.New(height). -/
def Row.New (height : Int) : Row :=
  { height := height, cols := [], config := none }

/-- Modelled from the spec: row.Add appends columns, preserving order. -/
def Row.Add (r : Row) (cs : List Col) : Row :=
  { r with cols := r.cols ++ cs }

/-- Modelled from the spec: row.GetStructure exports a node of type "row"
with value = height and one child node per column, in order. -/
def Row.GetStructure (r : Row) : SNode :=
  SNode.mk { Typ := "row", Value := Val.int r.height, Details := [] }
    (r.cols.map Col.GetStructure)

/-- Modelled from the spec: row.SetConfig stores the config and propagates
it to every column. -/
def Row.SetConfig (r : Row) (cfg : Config) : Row :=
  { r with
    config := some cfg
    cols := r.cols.map (fun c => Col.SetConfig c cfg) }

/-- code.NewMatrix: normalizes the optional properties via MakeValid and
stores them with the content; config starts nil. -/
def NewMatrix (code : String) (ps : List Rect) : Component :=
  Component.matrixCode code (Rect.MakeValid (ps.headD Rect.zero)) none

/-- code.NewMatrixCol: a fresh matrix code wrapped in col.New(size). -/
def NewMatrixCol (size : Int) (code : String) (ps : List Rect) : Col :=
  (Col.New [size]).Add [NewMatrix code ps]

/-- code.NewMatrixRow: a fresh matrix code wrapped in col.New() — no size
argument — inside row.New(height). -/
def NewMatrixRow (height : Int) (code : String) (ps : List Rect) : Row :=
  (Row.New height).Add [(Col.New []).Add [NewMatrix code ps]]

/-- code.NewBar (src/unnamed/part_000): normalizes the optional properties
via MakeValid and stores them with the content; config starts nil. -/
def NewBar (code : String) (ps : List Rect) : Component :=
  Component.barcode code (Rect.MakeValid (ps.headD Rect.zero)) none

/-- code.NewBarCol (src/unnamed/part_000): a fresh barcode wrapped in
col.New(size). -/
def NewBarCol (size : Int) (code : String) (ps : List Rect) : Col :=
  (Col.New [size]).Add [NewBar code ps]

/-- code.NewBarRow (src/unnamed/part_000): a fresh barcode wrapped in
col.New(0) — explicit size zero — inside row.New(height). -/
def NewBarRow (height : Int) (code : String) (ps : List Rect) : Row :=
  (Row.New height).Add [(Col.New [0]).Add [NewBar code ps]]

/-- Leaf GetStructure in state-passing form: the pair of the produced node
and the receiver as it stands after the call.  The Go bodies only read
fields, so the returned receiver carries exactly the fields it had. -/
def Component.GetStructureM : Component → SNode × Component
  | .matrixCode code prop cfg =>
      (.mk { Typ := "matrixcode", Value := Val.str code, Details := Rect.ToMap prop } [],
       .matrixCode code prop cfg)
  | .barcode code prop cfg =>
      (.mk { Typ := "barcode", Value := Val.str code, Details := [] } [],
       .barcode code prop cfg)

/-- The loop of col.GetStructure in state-passing form: each child's
GetStructureM is invoked in order and the children are threaded through. -/
def structLoop : List Component → List SNode × List Component
  | [] => ([], [])
  | comp :: rest =>
      let p := Component.GetStructureM comp
      let q := structLoop rest
      (p.1 :: q.1, p.2 :: q.2)

/-- col.GetStructure in state-passing form. -/
def Col.GetStructureM (c : Col) : SNode × Col :=
  let baseDetails := styleToMap c.style
  let details :=
    if c.isMax then baseDetails ++ [("is_max", Val.bool true)] else baseDetails
  let q := structLoop c.components
  (SNode.mk { Typ := "col", Value := Val.int c.size, Details := details } q.1,
   { c with components := q.2 })

/-! Helper lemmas shared between the claim theorems. -/

/-- A leaf component's render trace contains no CreateCol call. -/
theorem renders_no_createCol (comps : List Component) (cell : Cell) :
    ((comps.map (fun comp => Component.Render comp cell)).flatten).countP
        ProviderCall.isCreateCol = 0 := by
  induction comps with
  | nil => rfl
  | cons head tail ih =>
      simp only [List.map_cons, List.flatten_cons, List.countP_append, ih]
      cases head <;> rfl

/-- After col.SetConfig, every stored child carries the propagated config. -/
theorem setConfig_child_config (c : Col) (cfg : Config) :
    ∀ x ∈ (Col.SetConfig c cfg).components, Component.configOf x = some cfg := by
  intro x hx
  simp only [Col.SetConfig, List.mem_map] at hx
  obtain ⟨y, _, rfl⟩ := hx
  cases y <;> rfl

/-- The state-passing loop of col.GetStructure leaves the children unchanged
and produces each child's structure node in order. -/
theorem structLoop_spec (comps : List Component) :
    (structLoop comps).2 = comps
    ∧ (structLoop comps).1 = comps.map Component.GetStructure := by
  induction comps with
  | nil => exact ⟨rfl, rfl⟩
  | cons head tail ih =>
      constructor
      · show (Component.GetStructureM head).2 :: (structLoop tail).2 = head :: tail
        rw [ih.1]
        cases head <;> rfl
      · show (Component.GetStructureM head).1 :: (structLoop tail).1
            = Component.GetStructure head :: tail.map Component.GetStructure
        rw [ih.2]
        cases head <;> rfl

/-! The claims. -/

/-- Claim C1, counterexample: the auto-max column fresh from col.New() has a
nil config, and calling GetSize on it dereferences that nil pointer — the
modelled panic outcome nilDeref.  This refutes the claim that GetSize before
SetConfig fails with a distinct configuration-not-set error and does not
panic: the Go signature returns a bare int, no error value exists, and the
call crashes on the nil access. -/
theorem c1_counterexample :
    (Col.New []).isMax = true
    ∧ (Col.New []).config = none
    ∧ Col.GetSize (Col.New []) = SizeResult.nilDeref :=
  ⟨rfl, rfl, rfl⟩

/-- Claim C1, amended: on every auto-max Column whose config has not been
set, GetSize dereferences the nil config pointer (a panic, nilDeref); it
does not return 0 and it does not produce a configuration-not-set error,
since the code has no error path at all. -/
theorem c1_amended (c : Col) (hmax : c.isMax = true) (hcfg : c.config = none) :
    Col.GetSize c = SizeResult.nilDeref := by
  simp [Col.GetSize, hmax, hcfg]

/-- Witness for c1_amended at the concrete column col.New(). -/
theorem c1_amended_witness :
    Col.GetSize (Col.New []) = SizeResult.nilDeref :=
  c1_amended (Col.New []) rfl rfl

/-- Claim C2: a column built with an explicit size reports that size for
every config state — no config at all, or any config installed by SetConfig
(more generally any non-auto-max column reports its stored size) — and an
auto-max column reports MaxGridSize = G after SetConfig with G > 0. -/
theorem c2_getsize (s G : Int) (cfg : Config) (c : Col)
    (hG : 0 < G) (hc : c.isMax = false) :
    Col.GetSize c = SizeResult.ok c.size
    ∧ Col.GetSize (Col.New [s]) = SizeResult.ok s
    ∧ Col.GetSize (Col.SetConfig (Col.New [s]) cfg) = SizeResult.ok s
    ∧ Col.GetSize (Col.SetConfig (Col.New []) { MaxGridSize := G }) = SizeResult.ok G := by
  refine ⟨?_, rfl, rfl, rfl⟩
  simp [Col.GetSize, hc]

/-- Witness for c2_getsize: explicit size 7 is stable under config ⟨3⟩, and
an auto-max column resolves to MaxGridSize 12. -/
theorem c2_getsize_witness :
    Col.GetSize (Col.New [7]) = SizeResult.ok 7
    ∧ Col.GetSize (Col.New [7]) = SizeResult.ok 7
    ∧ Col.GetSize (Col.SetConfig (Col.New [7]) { MaxGridSize := 3 }) = SizeResult.ok 7
    ∧ Col.GetSize (Col.SetConfig (Col.New []) { MaxGridSize := 12 }) = SizeResult.ok 12 :=
  c2_getsize 7 12 { MaxGridSize := 3 } (Col.New [7]) (by decide) rfl

/-- Claim C3: col.Render with createCell = true issues exactly one CreateCol
call, as the first provider call, with (cell.Width, cell.Height, the
column's config, the column's style), followed by each child component's
render trace in stored order, every child receiving the same cell; with
createCell = false no CreateCol call is issued and the trace is exactly the
children's traces in order. -/
theorem c3_render_trace (c : Col) (cell : Cell) :
    Col.Render c cell true
        = ProviderCall.createCol cell.Width cell.Height c.config c.style
            :: (c.components.map (fun comp => Component.Render comp cell)).flatten
    ∧ (Col.Render c cell true).countP ProviderCall.isCreateCol = 1
    ∧ Col.Render c cell false
        = (c.components.map (fun comp => Component.Render comp cell)).flatten
    ∧ (Col.Render c cell false).countP ProviderCall.isCreateCol = 0 := by
  refine ⟨rfl, ?_, rfl, renders_no_createCol c.components cell⟩
  rw [show Col.Render c cell true
        = ProviderCall.createCol cell.Width cell.Height c.config c.style
            :: (c.components.map (fun comp => Component.Render comp cell)).flatten from rfl,
      List.countP_cons, renders_no_createCol]
  rfl

/-- Claim C4: the structure tree mirrors composition — a row's node has one
child per column in order, a column's node has one child per added component
in order (also after further Add calls), the child count equals the
component count, and a leaf's node has no children. -/
theorem c4_structure_mirrors (r : Row) (c : Col) (comps : List Component)
    (comp : Component) :
    (Row.GetStructure r).children = r.cols.map Col.GetStructure
    ∧ (Col.GetStructure c).children = c.components.map Component.GetStructure
    ∧ (Col.GetStructure c).children.length = c.components.length
    ∧ (Col.GetStructure (Col.Add c comps)).children
        = (c.components ++ comps).map Component.GetStructure
    ∧ (Component.GetStructure comp).children = [] := by
  refine ⟨rfl, rfl, ?_, rfl, ?_⟩
  · show (c.components.map Component.GetStructure).length = c.components.length
    simp
  · cases comp <;> rfl

/-- Claim C5: after SetConfig(cfg) on a Column, the Column itself stores cfg
and every component in its subtree stores the same cfg (the children of a
column are its whole subtree: leaves hold no further components). -/
theorem c5_config_propagation (c : Col) (cfg : Config) :
    (Col.SetConfig c cfg).config = some cfg
    ∧ ∀ x ∈ (Col.SetConfig c cfg).components, Component.configOf x = some cfg :=
  ⟨rfl, setConfig_child_config c cfg⟩

/-- Witness for c5_config_propagation on a column holding one matrix code,
with config MaxGridSize = 12. -/
theorem c5_config_propagation_witness :
    Component.configOf (Component.SetConfig (NewMatrix "m" []) { MaxGridSize := 12 })
        = some { MaxGridSize := 12 } :=
  (c5_config_propagation ((Col.New []).Add [NewMatrix "m" []]) { MaxGridSize := 12 }).2
    (Component.SetConfig (NewMatrix "m" []) { MaxGridSize := 12 }) (by decide)

/-- Claim C6, counterexample: the barcode of src/unnamed/part_000 builds its
structure node from Type and Value only, so Details stays empty — it is not
the properties exported as a mapping, which for the barcode's stored
(normalized) properties is non-empty.  This refutes the claim for the
barcode leaf. -/
theorem c6_counterexample :
    NewBar "123" [] = Component.barcode "123" (Rect.MakeValid Rect.zero) none
    ∧ (Component.GetStructure (NewBar "123" [])).data.Details = []
    ∧ Rect.ToMap (Rect.MakeValid Rect.zero) ≠ [] := by
  refine ⟨rfl, rfl, by decide⟩

/-- Claim C6, amended: a matrix code's structure node carries Type =
"matrixcode", Value = the content string, Details = the properties exported
as a mapping, and no children; a barcode's node carries Type = "barcode",
Value = the content string and no children, but its Details is left empty
rather than being the exported properties mapping. -/
theorem c6_amended (code : String) (prop : Rect) (cfg : Option Config) :
    Component.GetStructure (Component.matrixCode code prop cfg)
        = SNode.mk { Typ := "matrixcode", Value := Val.str code,
                     Details := Rect.ToMap prop } []
    ∧ Component.GetStructure (Component.barcode code prop cfg)
        = SNode.mk { Typ := "barcode", Value := Val.str code, Details := [] } []
    ∧ (Component.GetStructure (Component.matrixCode code prop cfg)).children = []
    ∧ (Component.GetStructure (Component.barcode code prop cfg)).children = [] :=
  ⟨rfl, rfl, rfl, rfl⟩

/-- Claim C7, counterexample: NewBarRow wraps its barcode in col.New(0) — a
column with explicit size 0, not an auto-max column: the single column of
NewBarRow(10, "123") has isMax = false.  This refutes the claim that the Row
convenience constructor of every leaf wraps it in an auto-max column. -/
theorem c7_counterexample :
    (NewBarRow 10 "123" []).cols.map (fun c => c.isMax) = [false] := by
  decide

/-- Claim C7, amended: NewMatrixRow returns a Row of the given height
holding exactly one auto-max Column holding exactly one fresh matrix code;
NewBarRow returns a Row of the given height holding exactly one Column of
explicit size 0 (not auto-max) holding exactly one fresh barcode; the Col
constructors wrap the fresh leaf in a single Column of the given size. -/
theorem c7_amended (h s : Int) (code : String) (ps : List Rect) :
    NewMatrixRow h code ps
        = { height := h,
            cols := [{ size := 0, isMax := true, components := [NewMatrix code ps],
                       config := none, style := none }],
            config := none }
    ∧ NewBarRow h code ps
        = { height := h,
            cols := [{ size := 0, isMax := false, components := [NewBar code ps],
                       config := none, style := none }],
            config := none }
    ∧ NewMatrixCol s code ps
        = { size := s, isMax := false, components := [NewMatrix code ps],
            config := none, style := none }
    ∧ NewBarCol s code ps
        = { size := s, isMax := false, components := [NewBar code ps],
            config := none, style := none }
    ∧ NewMatrix code ps
        = Component.matrixCode code (Rect.MakeValid (ps.headD Rect.zero)) none
    ∧ NewBar code ps
        = Component.barcode code (Rect.MakeValid (ps.headD Rect.zero)) none :=
  ⟨rfl, rfl, rfl, rfl, rfl, rfl⟩

/-- Claim C8, counterexample: col.New performs no bounds check — passing -1
stores size -1, and GetSize reports -1, violating 0 <= size for any
MaxGridSize. -/
theorem c8_counterexample :
    (Col.New [-1]).size = -1
    ∧ Col.GetSize (Col.New [-1]) = SizeResult.ok (-1)
    ∧ ¬ (0 ≤ (-1 : Int)) := by
  refine ⟨rfl, rfl, by decide⟩

/-- Claim C8, amended: col.New stores the passed size unchanged for every
integer s — the 0 <= size <= MaxGridSize range is a documented convention,
not enforced by the constructor. -/
theorem c8_amended (s : Int) :
    (Col.New [s]).size = s
    ∧ (Col.New [s]).isMax = false
    ∧ Col.GetSize (Col.New [s]) = SizeResult.ok s :=
  ⟨rfl, rfl, rfl⟩

/-- Claim C9: GetStructure, embedded in state-passing form, leaves the
column (and every component threaded through the child loop) exactly as it
was, so a second call on the result yields a node equal to the first — the
structure tree is built fresh on every call, with no caching and no
mutation; the state-passing form agrees with the direct embedding. -/
theorem c9_introspection_idempotent (c : Col) :
    (Col.GetStructureM c).2 = c
    ∧ (Col.GetStructureM ((Col.GetStructureM c).2)).1 = (Col.GetStructureM c).1
    ∧ (Col.GetStructureM c).1 = Col.GetStructure c := by
  have hframe : (Col.GetStructureM c).2 = c := by
    show ({ c with components := (structLoop c.components).2 } : Col) = c
    rw [(structLoop_spec c.components).1]
  have hpure : (Col.GetStructureM c).1 = Col.GetStructure c := by
    show SNode.mk _ (structLoop c.components).1
        = SNode.mk _ (c.components.map Component.GetStructure)
    rw [(structLoop_spec c.components).2]
  exact ⟨hframe, by rw [hframe], hpure⟩

/-- Claim C10: Add after SetConfig does not forward the stored config — the
appended component x enters the list exactly as passed (its config field
untouched), while the column's own config and those of the children present
at SetConfig time equal cfg. -/
theorem c10_frame (c : Col) (cfg : Config) (x : Component) :
    (Col.Add (Col.SetConfig c cfg) [x]).components
        = c.components.map (fun y => Component.SetConfig y cfg) ++ [x]
    ∧ (Col.Add (Col.SetConfig c cfg) [x]).components.getLast? = some x
    ∧ (Col.Add (Col.SetConfig c cfg) [x]).config = some cfg
    ∧ ∀ y ∈ (Col.SetConfig c cfg).components, Component.configOf y = some cfg := by
  refine ⟨rfl, ?_, rfl, setConfig_child_config c cfg⟩
  show ((Col.SetConfig c cfg).components ++ [x]).getLast? = some x
  simp [List.getLast?_concat]

/-- Witness for c10_frame: a column with one barcode, config MaxGridSize =
5, and a freshly added matrix code. -/
theorem c10_frame_witness :
    Component.configOf (Component.SetConfig (NewBar "b" []) { MaxGridSize := 5 })
        = some { MaxGridSize := 5 } :=
  (c10_frame ((Col.New [3]).Add [NewBar "b" []]) { MaxGridSize := 5 }
      (NewMatrix "x" [])).2.2.2
    (Component.SetConfig (NewBar "b" []) { MaxGridSize := 5 }) (by decide)

end Maroto
